import Mathlib

/-!
Shallow embedding of the diogenes control-plane core
(control_plane/core/{orchestrator,router,cluster,auth,keys}.py) over the
in-memory state store (control_plane/backends/mock/state.py).

Python dicts are modelled as association lists keyed by the record's
primary key; dict iteration order is insertion order, so listing filters
preserve list order.  External effects (compute.launch / compute.terminate,
health polling, the proxy HTTP call, the injected trigger_scale_up
callback) are recorded in an event trace, and their outcomes are passed in
as oracle parameters.  Clock reads int(time.time()) are passed in as
explicit integer parameters, one per textual call site.
-/

namespace Diogenes

/-- Attribute values as they sit in the store: the idle_timeout attribute of
a model config may hold an integer or an arbitrary string; Python's int()
is applied to it in scale_down. -/
inductive AttrVal where
  | intV (n : Int)
  | strV (s : String)
deriving DecidableEq, Repr

/-- Decimal value of a digit list. -/
def digitsToNat (l : List Char) : Nat :=
  l.foldl (fun acc c => acc * 10 + (c.toNat - 48)) 0

/-- CPython int(string): an optional sign followed by at least one decimal
digit parses; anything else raises ValueError.  (Surrounding whitespace
and underscore separators, which CPython also accepts, are irrelevant to
the stored values modelled here.) -/
def pyIntParse (s : String) : Option Int :=
  match s.data with
  | [] => none
  | '-' :: rest =>
      if rest ≠ [] ∧ rest.all Char.isDigit then some (-(digitsToNat rest : Int))
      else none
  | l =>
      if l.all Char.isDigit then some (digitsToNat l : Int)
      else none

/-- Python int(v): identity on ints, integer parsing on strings, raising
ValueError (modelled as Except.error) when the string does not parse. -/
def pyInt : AttrVal → Except String Int
  | .intV n => .ok n
  | .strV s =>
      match pyIntParse s with
      | some n => .ok n
      | none => .error ("invalid literal for int: " ++ s)

/-- Instance record (§3 of the spec; the dict built in orchestrator.scale_up).
Fields that are absent until set are Options. -/
structure Instance where
  instance_id : String
  model : String
  status : String
  ip : String
  instance_type : String
  launched_at : Option Int := none
  last_request_at : Option Int := none
  provider_instance_id : Option String := none
deriving DecidableEq, Repr

/-- Model configuration record (§3). idle_timeout may be absent. -/
structure ModelConfig where
  name : String
  instance_type : String
  vllm_args : String := ""
  idle_timeout : Option AttrVal := none
deriving DecidableEq, Repr

/-- API key record stored by keys.create_key. -/
structure ApiKeyRecord where
  key_hash : String
  email : String
  name : String
  created_at : Int
  last_used_at : Int
deriving DecidableEq, Repr

/-- The state store: the three tables of InMemoryStateStore, as lists in
insertion order. -/
structure Store where
  instances : List Instance := []
  models : List ModelConfig := []
  apiKeys : List ApiKeyRecord := []
deriving DecidableEq, Repr

/-- InMemoryStateStore.get_instance: point read by id. -/
def Store.get_instance (s : Store) (id : String) : Option Instance :=
  s.instances.find? (fun i => i.instance_id == id)

/-- The model/status filter used by InMemoryStateStore.list_instances. -/
def matchesFilter (m stt : Option String) (i : Instance) : Bool :=
  (match m with | some x => i.model == x | none => true) &&
  (match stt with | some x => i.status == x | none => true)

/-- InMemoryStateStore.list_instances with optional model/status filters. -/
def Store.list_instances (s : Store) (m stt : Option String) : List Instance :=
  s.instances.filter (matchesFilter m stt)

/-- Dict put: overwrite in place when the key exists, else append. -/
def Store.put_instance (s : Store) (inst : Instance) : Store :=
  if s.instances.any (fun i => i.instance_id == inst.instance_id) then
    { s with instances :=
        s.instances.map (fun i => if i.instance_id == inst.instance_id then inst else i) }
  else
    { s with instances := s.instances ++ [inst] }

/-- InMemoryStateStore.put_instance_if_absent: succeeds iff no row with the
same instance_id exists; returns the outcome together with the new store. -/
def Store.put_instance_if_absent (s : Store) (inst : Instance) : Bool × Store :=
  if s.instances.any (fun i => i.instance_id == inst.instance_id) then
    (false, s)
  else
    (true, { s with instances := s.instances ++ [inst] })

/-- InMemoryStateStore.update_instance: partial field update by id.  The
mock raises KeyError when the id is absent; every modelled call site
updates a row known to exist, where the two semantics agree. -/
def Store.update_instance (s : Store) (id : String) (f : Instance → Instance) : Store :=
  { s with instances := s.instances.map (fun i => if i.instance_id == id then f i else i) }

/-- delete_instance (DynamoDBStateStore.delete_instance): removes the row
when present, no-op otherwise. -/
def Store.delete_instance (s : Store) (id : String) : Store :=
  { s with instances := s.instances.filter (fun i => !(i.instance_id == id)) }

/-- get_model_config: point read of the models table. -/
def Store.get_model_config (s : Store) (name : String) : Option ModelConfig :=
  s.models.find? (fun c => c.name == name)

/-- list_model_configs. -/
def Store.list_model_configs (s : Store) : List ModelConfig :=
  s.models

/-- get_api_key: point read of the keys table by hash. -/
def Store.get_api_key (s : Store) (h : String) : Option ApiKeyRecord :=
  s.apiKeys.find? (fun k => k.key_hash == h)

/-- put_api_key: dict put keyed by key_hash. -/
def Store.put_api_key (s : Store) (k : ApiKeyRecord) : Store :=
  if s.apiKeys.any (fun r => r.key_hash == k.key_hash) then
    { s with apiKeys := s.apiKeys.map (fun r => if r.key_hash == k.key_hash then k else r) }
  else
    { s with apiKeys := s.apiKeys ++ [k] }

/-- delete_api_key: pop with no error when absent. -/
def Store.delete_api_key (s : Store) (h : String) : Store :=
  { s with apiKeys := s.apiKeys.filter (fun k => !(k.key_hash == h)) }

/-- update_api_key_last_used: set last_used_at when the key exists. -/
def Store.update_api_key_last_used (s : Store) (h : String) (ts : Int) : Store :=
  { s with apiKeys :=
      s.apiKeys.map (fun k => if k.key_hash == h then { k with last_used_at := ts } else k) }

/-- list_api_keys: all keys belonging to an email. -/
def Store.list_api_keys (s : Store) (email : String) : List ApiKeyRecord :=
  s.apiKeys.filter (fun k => k.email == email)

/-- Observable events: store reads and writes, compute calls, health
polling, the proxy call and the injected trigger callback, in program
order. -/
inductive Ev where
  | listInstancesEv (model status : Option String)
  | getModelConfigEv (name : String)
  | deleteInstanceEv (id : String)
  | putIfAbsentEv (id : String) (outcome : Bool)
  | updateInstanceEv (id : String) (fields : List String)
  | launchEv (model : String)
  | terminateEv (providerId : String)
  | pollHealthEv (ip : String)
  | triggerScaleUpEv (model : String)
  | proxyEv (ip : String) (path : String)
deriving DecidableEq, Repr

/-- Outcome of compute.launch: a (provider_instance_id, ip) pair, or an
exception. -/
inductive LaunchRes where
  | ok (providerId ip : String)
  | raised
deriving DecidableEq, Repr

/-- Outcome of poll_health: a boolean, or an exception escaping the
polling loop (swallowed by scale_up and treated as unhealthy). -/
inductive HealthRes where
  | ok (healthy : Bool)
  | raised
deriving DecidableEq, Repr

/-- Result of orchestrator.scale_up: a returned instance record, the
ValueError for an unknown model, or the re-raised launch exception. -/
inductive ScaleUpRes where
  | ret (inst : Instance)
  | unknownModel (model : String)
  | launchFailed
deriving DecidableEq, Repr

/-- orchestrator.scale_up, lines 20-103.  Oracle parameters: the outcome of
compute.launch, the outcome of poll_health, and the two clock reads
(now at placeholder creation, readyNow at the ready transition).
Returns (result, final store, event trace). -/
def scale_up (model_name : String) (s : Store)
    (launchRes : LaunchRes) (healthRes : HealthRes)
    (now readyNow : Int) : ScaleUpRes × Store × List Ev :=
  let tr0 : List Ev :=
    [.listInstancesEv (some model_name) (some "starting"),
     .listInstancesEv (some model_name) (some "ready")]
  let existing := s.list_instances (some model_name) (some "starting")
      ++ s.list_instances (some model_name) (some "ready")
  match existing with
  | e :: _ => (.ret e, s, tr0)
  | [] =>
    let stale := s.list_instances (some model_name) (some "terminated")
    let s1 := stale.foldl (fun acc i => acc.delete_instance i.instance_id) s
    let tr1 := tr0 ++ [.listInstancesEv (some model_name) (some "terminated")]
        ++ stale.map (fun i => Ev.deleteInstanceEv i.instance_id)
        ++ [.getModelConfigEv model_name]
    match s1.get_model_config model_name with
    | none => (.unknownModel model_name, s1, tr1)
    | some cfg =>
      let placeholder : Instance :=
        { instance_id := "model#" ++ model_name
          model := model_name
          status := "starting"
          ip := ""
          instance_type := cfg.instance_type
          launched_at := some now
          last_request_at := some now }
      let claimed := s1.put_instance_if_absent placeholder
      let s2 := claimed.2
      let tr2 := tr1 ++ [.putIfAbsentEv placeholder.instance_id claimed.1]
      if claimed.1 then
        match launchRes with
        | .raised =>
          let s3 := s2.update_instance placeholder.instance_id
              (fun i => { i with status := "terminated" })
          (.launchFailed, s3,
           tr2 ++ [.launchEv model_name,
                   .updateInstanceEv placeholder.instance_id ["status"]])
        | .ok providerId ip =>
          let s3 := s2.update_instance placeholder.instance_id
              (fun i => { i with provider_instance_id := some providerId, ip := ip })
          let withNode := { placeholder with
              provider_instance_id := some providerId, ip := ip }
          let healthy := match healthRes with | .ok b => b | .raised => false
          let tr3 := tr2 ++ [.launchEv model_name,
              .updateInstanceEv placeholder.instance_id ["provider_instance_id", "ip"],
              .pollHealthEv ip]
          if healthy then
            let s4 := s3.update_instance placeholder.instance_id
                (fun i => { i with status := "ready", last_request_at := some readyNow })
            (.ret { withNode with status := "ready" }, s4,
             tr3 ++ [.updateInstanceEv placeholder.instance_id ["status", "last_request_at"]])
          else
            let s4 := s3.update_instance placeholder.instance_id
                (fun i => { i with status := "terminated" })
            (.ret { withNode with status := "terminated" }, s4,
             tr3 ++ [.terminateEv providerId,
                     .updateInstanceEv placeholder.instance_id ["status"]])
      else
        let existing2 := s2.list_instances (some model_name) (some "starting")
            ++ s2.list_instances (some model_name) (some "ready")
        let tr3 := tr2 ++ [.listInstancesEv (some model_name) (some "starting"),
                           .listInstancesEv (some model_name) (some "ready")]
        match existing2 with
        | e :: _ => (.ret e, s2, tr3)
        | [] => (.ret placeholder, s2, tr3)

/-- The idle timeout scale_down uses for an instance, orchestrator lines
120-122: 300 when the model config is missing, otherwise
int(model_config.get("idle_timeout", 300)), whose int() call raises on an
unparseable stored value. -/
def effIdleTimeout : Option ModelConfig → Except String Int
  | none => .ok 300
  | some cfg => pyInt (cfg.idle_timeout.getD (.intV 300))

/-- The idle reference time, orchestrator line 124:
int(inst.get("last_request_at", inst.get("launched_at", 0))). -/
def lastRequestOf (inst : Instance) : Int :=
  inst.last_request_at.getD (inst.launched_at.getD 0)

/-- Loop body of orchestrator.scale_down over the snapshot of ready
instances; threads the store, the accumulated reaped ids and the trace;
propagates the ValueError from int() on an unparseable idle_timeout. -/
def scale_down_go (now : Int) :
    List Instance → List String → Store → List Ev →
    Except String (List String × Store × List Ev)
  | [], acc, s, tr => .ok (acc, s, tr)
  | inst :: rest, acc, s, tr =>
    let tr := tr ++ [.getModelConfigEv inst.model]
    match effIdleTimeout (s.get_model_config inst.model) with
    | .error e => .error e
    | .ok idle_timeout =>
      if now - lastRequestOf inst > idle_timeout then
        let s1 := s.update_instance inst.instance_id
            (fun i => { i with status := "draining" })
        let pid := inst.provider_instance_id.getD inst.instance_id
        let s2 := s1.update_instance inst.instance_id
            (fun i => { i with status := "terminated" })
        scale_down_go now rest (acc ++ [inst.instance_id]) s2
          (tr ++ [.updateInstanceEv inst.instance_id ["status"],
                  .terminateEv pid,
                  .updateInstanceEv inst.instance_id ["status"]])
      else
        scale_down_go now rest acc s tr

/-- orchestrator.scale_down, lines 106-137: reap ready instances idle past
their model's timeout.  Returns the reaped slot ids, the final store and
the trace, or the propagated ValueError. -/
def scale_down (s : Store) (now : Int) :
    Except String (List String × Store × List Ev) :=
  scale_down_go now (s.list_instances none (some "ready")) [] s
    [.listInstancesEv none (some "ready")]

/-- Outcome of the proxy HTTP call: upstream status and decoded JSON body
(opaque to the router, modelled as a string), or a transport exception
(requests.RequestException) carrying its message. -/
inductive ProxyRes where
  | ok (status : Int) (payload : String)
  | raised (msg : String)
deriving DecidableEq, Repr

/-- Response body shapes produced by the router: a structured error object
or the upstream payload passed through. -/
inductive RespBody where
  | errObj (message ty : String)
  | passthrough (payload : String)
deriving DecidableEq, Repr

/-- Normalized response payload returned by router.handle_inference. -/
structure RouterResp where
  status_code : Int
  body : RespBody
  headers : List (String × String) := []
deriving DecidableEq, Repr

/-- router.handle_inference, lines 24-72.  The request body is opaque; the
proxy outcome is an oracle; trigger_scale_up is the injected callback,
recorded as an event.  now is the clock read at the last_request_at
update.  Returns (response, final store, trace). -/
def handle_inference (model : String) (s : Store)
    (proxyRes : ProxyRes) (now : Int) (path : String) :
    RouterResp × Store × List Ev :=
  if model == "" then
    ({ status_code := 400,
       body := .errObj "model is required" "invalid_request_error" }, s, [])
  else
    let ready := s.list_instances (some model) (some "ready")
    let tr0 : List Ev := [.listInstancesEv (some model) (some "ready")]
    match ready with
    | [] =>
      ({ status_code := 503,
         body := .errObj "Model is cold-starting. Retry shortly." "service_unavailable",
         headers := [("Retry-After", "10")] },
       s, tr0 ++ [.triggerScaleUpEv model])
    | target :: _ =>
      let s1 := s.update_instance target.instance_id
          (fun i => { i with last_request_at := some now })
      let tr1 := tr0 ++ [.updateInstanceEv target.instance_id ["last_request_at"],
                         .proxyEv target.ip path]
      match proxyRes with
      | .ok st payload =>
        ({ status_code := st, body := .passthrough payload }, s1, tr1)
      | .raised msg =>
        ({ status_code := 502,
           body := .errObj ("Upstream inference server unavailable: " ++ msg)
             "bad_gateway" }, s1, tr1)

/-- router.list_models: the OpenAI-style catalog entries (id, object,
owned_by), read-only. -/
def list_models (s : Store) : List (String × String × String) :=
  s.list_model_configs.map (fun m => (m.name, "model", "diogenes"))

/-- One row of the per-model summary built by cluster.get_cluster_state. -/
structure ModelState where
  name : String
  instance_type : String
  idle_timeout : Option AttrVal
  status : String
  ready_count : Nat
  starting_count : Nat
  instance_count : Nat
deriving DecidableEq, Repr

/-- cluster.get_cluster_state, lines 8-48: read-only summary; instances
list excludes terminated rows. -/
def get_cluster_state (s : Store) : List ModelState × List Instance :=
  let instances := s.list_instances none none
  (s.list_model_configs.map (fun m =>
      let mi := instances.filter
          (fun i => i.model == m.name && !(i.status == "terminated"))
      let ready_count := (mi.filter (fun i => i.status == "ready")).length
      let starting_count :=
        (mi.filter (fun i => i.status == "starting" || i.status == "draining")).length
      let status :=
        if ready_count > 0 then "ready"
        else if starting_count > 0 then "warming"
        else "cold"
      { name := m.name
        instance_type := m.instance_type
        idle_timeout := m.idle_timeout
        status := status
        ready_count := ready_count
        starting_count := starting_count
        instance_count := mi.length }),
   instances.filter (fun i => !(i.status == "terminated")))

/-- Response dict of cluster.manual_scale. -/
structure ScaleResp where
  ok : Bool
  model : String
  action : String
  message : Option String := none
  terminated_instance_id : Option String := none
deriving DecidableEq, Repr

/-- CPython str.lower: lowercase each character. -/
def pyLower (s : String) : String :=
  String.mk (s.data.map Char.toLower)

/-- CPython str.strip(): drop leading and trailing whitespace. -/
def pyStrip (s : String) : String :=
  String.mk
    (((s.data.dropWhile Char.isWhitespace).reverse.dropWhile
        Char.isWhitespace).reverse)

/-- cluster.manual_scale, lines 51-97.  ValueErrors are modelled as
Except.error; trigger_scale_up is recorded as an event; action.lower().strip()
is pyStrip (pyLower action).  Returns (response, final store, trace). -/
def manual_scale (model action : String) (s : Store) :
    Except String (ScaleResp × Store × List Ev) :=
  if model == "" then .error "model is required"
  else
    match s.get_model_config model with
    | none => .error ("Unknown model: " ++ model)
    | some _ =>
      let normalized_action := pyStrip (pyLower action)
      if normalized_action == "up" then
        .ok ({ ok := true, model := model, action := "up",
               message := some "scale-up requested" },
             s, [.getModelConfigEv model, .triggerScaleUpEv model])
      else if normalized_action == "down" then
        let candidates0 := s.list_instances (some model) (some "ready")
        let tr0 : List Ev :=
          [.getModelConfigEv model, .listInstancesEv (some model) (some "ready")]
        let candidates :=
          if candidates0.isEmpty then s.list_instances (some model) (some "starting")
          else candidates0
        let tr1 :=
          if candidates0.isEmpty then
            tr0 ++ [.listInstancesEv (some model) (some "starting")]
          else tr0
        match candidates with
        | [] =>
          .ok ({ ok := true, model := model, action := "down",
                 message := some "no running instances" }, s, tr1)
        | target :: _ =>
          let s1 := s.update_instance target.instance_id
              (fun i => { i with status := "terminated" })
          .ok ({ ok := true, model := model, action := "down",
                 terminated_instance_id := some target.instance_id },
               s1, tr1 ++ [.updateInstanceEv target.instance_id ["status"]])
      else .error ("Unsupported scale action: " ++ action)

/- SHA-256 over byte lists, mirroring hashlib.sha256(...).hexdigest() as
used by keys._hash_api_key and auth.hash_api_key.  Words are Nats reduced
mod 2^32 at every arithmetic step. -/

/-- Right rotation of a 32-bit word. -/
def rotr32 (x n : Nat) : Nat :=
  ((x >>> n) ||| (x <<< (32 - n))) % 4294967296

/-- SHA-256 small sigma 0. -/
def ssig0 (x : Nat) : Nat := (rotr32 x 7) ^^^ (rotr32 x 18) ^^^ (x >>> 3)

/-- SHA-256 small sigma 1. -/
def ssig1 (x : Nat) : Nat := (rotr32 x 17) ^^^ (rotr32 x 19) ^^^ (x >>> 10)

/-- SHA-256 big sigma 0. -/
def bsig0 (x : Nat) : Nat := (rotr32 x 2) ^^^ (rotr32 x 13) ^^^ (rotr32 x 22)

/-- SHA-256 big sigma 1. -/
def bsig1 (x : Nat) : Nat := (rotr32 x 6) ^^^ (rotr32 x 11) ^^^ (rotr32 x 25)

/-- SHA-256 round constants. -/
def sha256K : List Nat :=
  [1116352408, 1899447441, 3049323471, 3921009573,
   961987163, 1508970993, 2453635748, 2870763221,
   3624381080, 310598401, 607225278, 1426881987,
   1925078388, 2162078206, 2614888103, 3248222580,
   3835390401, 4022224774, 264347078, 604807628,
   770255983, 1249150122, 1555081692, 1996064986,
   2554220882, 2821834349, 2952996808, 3210313671,
   3336571891, 3584528711, 113926993, 338241895,
   666307205, 773529912, 1294757372, 1396182291,
   1695183700, 1986661051, 2177026350, 2456956037,
   2730485921, 2820302411, 3259730800, 3345764771,
   3516065817, 3600352804, 4094571909, 275423344,
   430227734, 506948616, 659060556, 883997877,
   958139571, 1322822218, 1537002063, 1747873779,
   1955562222, 2024104815, 2227730452, 2361852424,
   2428436474, 2756734187, 3204031479, 3329325298]

/-- SHA-256 initial hash state. -/
def sha256H0 : List Nat :=
  [1779033703, 3144134277, 1013904242, 2773480762,
   1359893119, 2600822924, 528734635, 1541459225]

/-- Big-endian byte expansion of a number to a fixed width. -/
def beBytes (n : Nat) : Nat → List Nat
  | 0 => []
  | c + 1 => beBytes (n / 256) c ++ [n % 256]

/-- Group a byte list into big-endian 32-bit words. -/
def toWords : List Nat → List Nat
  | b0 :: b1 :: b2 :: b3 :: rest =>
      (((b0 * 256 + b1) * 256 + b2) * 256 + b3) :: toWords rest
  | _ => []

/-- Extend the 16 message words of a block to the 64-entry schedule. -/
def schedule (w0 : Array Nat) : Array Nat :=
  (List.range 48).foldl (fun w i =>
      let t := (ssig1 (w.getD (i + 14) 0) + w.getD (i + 9) 0
          + ssig0 (w.getD (i + 1) 0) + w.getD i 0) % 4294967296
      w.push t) w0

/-- One SHA-256 compression over a scheduled block. -/
def compress (h : List Nat) (w : Array Nat) : List Nat :=
  let final := (List.range 64).foldl (fun (st : List Nat) i =>
      let a := st.getD 0 0
      let b := st.getD 1 0
      let c := st.getD 2 0
      let d := st.getD 3 0
      let e := st.getD 4 0
      let f := st.getD 5 0
      let g := st.getD 6 0
      let hh := st.getD 7 0
      let ch := (e &&& f) ^^^ ((e ^^^ 4294967295) &&& g)
      let maj := (a &&& b) ^^^ (a &&& c) ^^^ (b &&& c)
      let t1 := (hh + bsig1 e + ch + sha256K.getD i 0 + w.getD i 0) % 4294967296
      let t2 := (bsig0 a + maj) % 4294967296
      [(t1 + t2) % 4294967296, a, b, c, (d + t1) % 4294967296, e, f, g]) h
  List.zipWith (fun x y => (x + y) % 4294967296) h final

/-- SHA-256 padding: 0x80, zeros to 56 mod 64, then the bit length as
eight big-endian bytes. -/
def sha256pad (msg : List Nat) : List Nat :=
  let ml := 8 * msg.length
  let zeros := (119 - msg.length % 64) % 64
  msg ++ [128] ++ List.replicate zeros 0 ++ beBytes ml 8

/-- Split a byte list into 64-byte chunks. -/
def chunks64 (l : List Nat) : List (List Nat) :=
  if hl : l = [] then []
  else l.take 64 :: chunks64 (l.drop 64)
termination_by l.length
decreasing_by
  simp only [List.length_drop]
  have : l.length ≠ 0 := fun h0 => hl (List.length_eq_zero.mp h0)
  omega

/-- SHA-256 digest of a byte list, as 32 bytes. -/
def sha256 (msg : List Nat) : List Nat :=
  let hFinal := (chunks64 (sha256pad msg)).foldl
      (fun h blk => compress h (schedule (toWords blk).toArray)) sha256H0
  (hFinal.map (fun w => beBytes w 4)).flatten

/-- Lowercase hex digit for a nibble. -/
def hexChar (n : Nat) : Char :=
  if n = 0 then '0' else if n = 1 then '1' else if n = 2 then '2'
  else if n = 3 then '3' else if n = 4 then '4' else if n = 5 then '5'
  else if n = 6 then '6' else if n = 7 then '7' else if n = 8 then '8'
  else if n = 9 then '9' else if n = 10 then 'a' else if n = 11 then 'b'
  else if n = 12 then 'c' else if n = 13 then 'd' else if n = 14 then 'e'
  else if n = 15 then 'f' else '0'

/-- Two hex digits of a byte. -/
def byteToHex (b : Nat) : List Char := [hexChar (b / 16 % 16), hexChar (b % 16)]

/-- Lowercase hex encoding of a byte list (hashlib hexdigest). -/
def hexdigest (bytes : List Nat) : String :=
  String.mk ((bytes.map byteToHex).flatten)

/-- UTF-8 bytes of a string, as Nats (token.encode("utf-8")). -/
def utf8Bytes (s : String) : List Nat :=
  s.toUTF8.toList.map (fun b => b.toNat)

/-- auth.hash_api_key: lowercase hex SHA-256 of the UTF-8 token bytes. -/
def hash_api_key (token : String) : String :=
  hexdigest (sha256 (utf8Bytes token))

/-- keys._hash_api_key: textually identical to auth.hash_api_key. -/
def keysHashApiKey (token : String) : String :=
  hexdigest (sha256 (utf8Bytes token))

/-- CPython str.startswith: character-level prefix test. -/
def pyStartswith (s p : String) : Bool :=
  p.data.isPrefixOf s.data

/-- auth.validate_api_key, lines 16-31.  now is the clock read for
update_api_key_last_used.  Returns ((is_valid, email), final store). -/
def validate_api_key (token : String) (s : Store) (now : Int) :
    (Bool × Option String) × Store :=
  if token == "" || !(pyStartswith token "dio-") then ((false, none), s)
  else
    let key_hash := hash_api_key token
    match s.get_api_key key_hash with
    | none => ((false, none), s)
    | some record =>
      ((true, some record.email), s.update_api_key_last_used key_hash now)

/-- Return dict of keys.create_key: the raw token plus metadata. -/
structure CreateKeyRes where
  key : String
  key_id : String
  name : String
  created_at : Int
  last_used_at : Int
deriving DecidableEq, Repr

/-- keys.create_key, lines 20-44.  rand is the oracle for
secrets.token_urlsafe(24); the token is "dio-" ++ rand (KEY_PREFIX is the
literal "dio-").  Returns (result, final store). -/
def create_key (email name : String) (s : Store) (rand : String) (now : Int) :
    CreateKeyRes × Store :=
  let token := "dio-" ++ rand
  let key_hash := keysHashApiKey token
  let record : ApiKeyRecord :=
    { key_hash := key_hash, email := email, name := name,
      created_at := now, last_used_at := now }
  ({ key := token, key_id := key_hash, name := name,
     created_at := now, last_used_at := now },
   s.put_api_key record)

/-- Metadata dict returned by keys.list_keys (never the raw token). -/
structure KeyMeta where
  key_id : String
  name : String
  created_at : Int
  last_used_at : Int
deriving DecidableEq, Repr

/-- Stable descending insertion by created_at (Python sorted, reverse=True). -/
def insertByCreatedDesc (k : ApiKeyRecord) :
    List ApiKeyRecord → List ApiKeyRecord
  | [] => [k]
  | x :: xs =>
      if x.created_at < k.created_at then k :: x :: xs
      else x :: insertByCreatedDesc k xs

/-- Sort key records by created_at descending, stably. -/
def sortByCreatedDesc : List ApiKeyRecord → List ApiKeyRecord
  | [] => []
  | x :: xs => insertByCreatedDesc x (sortByCreatedDesc xs)

/-- keys.list_keys, lines 47-58: metadata for a user's keys, newest first. -/
def list_keys (email : String) (s : Store) : List KeyMeta :=
  (sortByCreatedDesc (s.list_api_keys email)).map
    (fun item =>
      { key_id := item.key_hash, name := item.name,
        created_at := item.created_at, last_used_at := item.last_used_at })

/-- keys.delete_key, lines 61-68: delete only when owned by the requesting
email; returns whether a deletion happened, with the final store. -/
def delete_key (key_hash email : String) (s : Store) : Bool × Store :=
  match s.get_api_key key_hash with
  | none => (false, s)
  | some existing =>
      if existing.email == email then (true, s.delete_api_key key_hash)
      else (false, s)

/-! Store lemmas. -/

/-- Listing with a status filter only returns instances carrying that
status. -/
theorem status_of_mem_list_instances {s : Store} {m : Option String}
    {st : String} {e : Instance}
    (h : e ∈ s.list_instances m (some st)) : e.status = st := by
  have hf := List.of_mem_filter h
  simp only [matchesFilter, Bool.and_eq_true] at hf
  have := hf.2
  cases m <;> simp_all

/-- A member of a filtered listing is a member of the instances table. -/
theorem mem_of_mem_list_instances {s : Store} {m st : Option String}
    {e : Instance} (h : e ∈ s.list_instances m st) : e ∈ s.instances :=
  List.mem_of_mem_filter h

/-- update_instance does not touch the models table, so config reads are
unaffected. -/
@[simp] theorem get_model_config_update (s : Store) (id : String)
    (f : Instance → Instance) (n : String) :
    (s.update_instance id f).get_model_config n = s.get_model_config n := rfl

/-- Keyed search is unchanged by a keyed map at a different key, when the
mapped function keeps instance ids. -/
theorem find_map_update_ne (id id' : String)
    (f : Instance → Instance)
    (hf : ∀ i, (f i).instance_id = i.instance_id) (hne : ¬ id = id') :
    ∀ l : List Instance,
      (l.map (fun i => if i.instance_id == id' then f i else i)).find?
          (fun i => i.instance_id == id) =
        l.find? (fun i => i.instance_id == id) := by
  intro l
  induction l with
  | nil => rfl
  | cons hd tl ih =>
      rw [List.map_cons]
      by_cases hid : hd.instance_id = id'
      · have hg : (if hd.instance_id == id' then f hd else hd) = f hd := by
          simp [hid]
        rw [hg]
        have hpf : ((f hd).instance_id == id) = false := by
          rw [hf hd, hid]
          simp only [beq_eq_false_iff_ne, ne_eq]
          exact fun h => hne h.symm
        have hph : (hd.instance_id == id) = false := by
          rw [hid]
          simp only [beq_eq_false_iff_ne, ne_eq]
          exact fun h => hne h.symm
        simp only [List.find?_cons, hpf, hph]
        exact ih
      · have hg : (if hd.instance_id == id' then f hd else hd) = hd := by
          simp [hid]
        rw [hg]
        by_cases hph : hd.instance_id = id
        · have h1 : (hd.instance_id == id) = true := by simp [hph]
          simp only [List.find?_cons, h1]
        · have h1 : (hd.instance_id == id) = false := by simp [hph]
          simp only [List.find?_cons, h1]
          exact ih

/-- Keyed search after a keyed map at the found key returns the mapped
record, when the mapped function keeps instance ids. -/
theorem find_map_update_self (id : String)
    (f : Instance → Instance)
    (hf : ∀ i, (f i).instance_id = i.instance_id) (inst : Instance) :
    ∀ l : List Instance,
      l.find? (fun i => i.instance_id == id) = some inst →
      (l.map (fun i => if i.instance_id == id then f i else i)).find?
          (fun i => i.instance_id == id) = some (f inst) := by
  intro l
  induction l with
  | nil => intro h; simp at h
  | cons hd tl ih =>
      intro h
      rw [List.map_cons]
      by_cases hph : hd.instance_id = id
      · have h1 : (hd.instance_id == id) = true := by simp [hph]
        simp only [List.find?_cons, h1] at h
        have hinst : hd = inst := by injection h
        subst hinst
        have hg : (if hd.instance_id == id then f hd else hd) = f hd := by
          simp [hph]
        have h2 : ((f hd).instance_id == id) = true := by rw [hf hd]; exact h1
        rw [hg]
        simp only [List.find?_cons, h2]
      · have h1 : (hd.instance_id == id) = false := by simp [hph]
        simp only [List.find?_cons, h1] at h
        have hg : (if hd.instance_id == id then f hd else hd) = hd := by
          simp [hph]
        rw [hg]
        simp only [List.find?_cons, h1]
        exact ih h

/-- Point read after an update of a different id, for updates that keep
instance ids. -/
theorem get_update_ne (s : Store) (id id' : String) (f : Instance → Instance)
    (hf : ∀ i, (f i).instance_id = i.instance_id) (hne : ¬ id = id') :
    (s.update_instance id' f).get_instance id = s.get_instance id :=
  find_map_update_ne id id' f hf hne s.instances

/-- Point read after an update of the same id, when the id's record is
known and the update keeps instance ids. -/
theorem get_update_self (s : Store) (id : String) (f : Instance → Instance)
    (hf : ∀ i, (f i).instance_id = i.instance_id) (inst : Instance)
    (h : s.get_instance id = some inst) :
    (s.update_instance id f).get_instance id = some (f inst) :=
  find_map_update_self id f hf inst s.instances h

/-- Keyed search in a list with no duplicate ids finds a given member. -/
theorem find_of_mem_nodup (inst : Instance) :
    ∀ l : List Instance, inst ∈ l →
      (l.map Instance.instance_id).Nodup →
      l.find? (fun i => i.instance_id == inst.instance_id) = some inst := by
  intro l
  induction l with
  | nil => intro hmem; simp at hmem
  | cons hd tl ih =>
      intro hmem hnodup
      simp only [List.map_cons, List.nodup_cons] at hnodup
      rcases List.mem_cons.mp hmem with heq | hmem'
      · subst heq
        have h1 : (inst.instance_id == inst.instance_id) = true := by simp
        simp only [List.find?_cons, h1]
      · have hne : (hd.instance_id == inst.instance_id) = false := by
          simp only [beq_eq_false_iff_ne, ne_eq]
          intro h
          exact hnodup.1 (h ▸ List.mem_map_of_mem Instance.instance_id hmem')
        simp only [List.find?_cons, hne]
        exact ih hmem' hnodup.2

/-- In a table with no duplicate ids, the point read of a member's id
returns that member. -/
theorem get_of_mem_nodup (s : Store) (inst : Instance)
    (hmem : inst ∈ s.instances)
    (hnodup : (s.instances.map Instance.instance_id).Nodup) :
    s.get_instance inst.instance_id = some inst :=
  find_of_mem_nodup inst s.instances hmem hnodup

/-- Every instance updated to terminated status reads back as terminated. -/
theorem status_after_update_terminated (s : Store) (id : String) :
    ∀ i ∈ (s.update_instance id
        (fun j => { j with status := "terminated" })).instances,
      i.instance_id = id → i.status = "terminated" := by
  intro i hi hid
  rcases List.mem_map.mp hi with ⟨j, hj, rfl⟩
  by_cases h : j.instance_id = id
  · simp [h]
  · simp [h] at hid

/-- Every instance updated with a fresh last_request_at reads back with it. -/
theorem last_after_update (s : Store) (id : String) (v : Int) :
    ∀ i ∈ (s.update_instance id
        (fun j => { j with last_request_at := some v })).instances,
      i.instance_id = id → i.last_request_at = some v := by
  intro i hi hid
  rcases List.mem_map.mp hi with ⟨j, hj, rfl⟩
  by_cases h : j.instance_id = id
  · simp [h]
  · simp [h] at hid

/-- C3: handle_inference on a non-empty model with no ready instance calls
the injected trigger_scale_up exactly once and returns 503 with the
cold-start error body and a Retry-After: 10 header, leaving the store
untouched. -/
theorem handle_inference_cold_start_503 (model : String) (s : Store)
    (pr : ProxyRes) (now : Int) (path : String)
    (hm : ¬ model = "")
    (hready : s.list_instances (some model) (some "ready") = []) :
    handle_inference model s pr now path =
      ({ status_code := 503,
         body := .errObj "Model is cold-starting. Retry shortly."
           "service_unavailable",
         headers := [("Retry-After", "10")] }, s,
       [.listInstancesEv (some model) (some "ready"), .triggerScaleUpEv model])
    ∧ (handle_inference model s pr now path).2.2.count
        (.triggerScaleUpEv model) = 1 := by
  have hm' : (model == "") = false := by simp [hm]
  constructor
  · simp only [handle_inference, hm', Bool.false_eq_true, if_false, hready,
      List.singleton_append]
  · simp only [handle_inference, hm', Bool.false_eq_true, if_false, hready,
      List.singleton_append]
    simp [List.count_cons]

/-- Witness for C3: a cold request against an empty store. -/
theorem handle_inference_cold_start_503_witness :
    ((¬ "m" = "") ∧
      Store.list_instances ⟨[], [], []⟩ (some "m") (some "ready") = []) ∧
    (handle_inference "m" ⟨[], [], []⟩ (.ok 200 "x") 5 "/v1/chat/completions" =
      ({ status_code := 503,
         body := .errObj "Model is cold-starting. Retry shortly."
           "service_unavailable",
         headers := [("Retry-After", "10")] }, (⟨[], [], []⟩ : Store),
       [.listInstancesEv (some "m") (some "ready"), .triggerScaleUpEv "m"])
    ∧ (handle_inference "m" ⟨[], [], []⟩ (.ok 200 "x") 5
        "/v1/chat/completions").2.2.count (.triggerScaleUpEv "m") = 1) :=
  ⟨⟨by decide, rfl⟩,
   handle_inference_cold_start_503 "m" ⟨[], [], []⟩ (.ok 200 "x") 5
     "/v1/chat/completions" (by decide) rfl⟩

/-- C8: with a ready instance, handle_inference records the
last_request_at write on the chosen instance (the first ready one)
strictly before the proxy call in the trace, for every proxy outcome
including failures, and the final store carries the fresh timestamp. -/
theorem last_request_write_precedes_proxy (model : String) (s : Store)
    (pr : ProxyRes) (now : Int) (path : String) (target : Instance)
    (rest : List Instance)
    (hm : ¬ model = "")
    (hready : s.list_instances (some model) (some "ready") = target :: rest) :
    (handle_inference model s pr now path).2.2 =
      [.listInstancesEv (some model) (some "ready"),
       .updateInstanceEv target.instance_id ["last_request_at"],
       .proxyEv target.ip path]
    ∧ (handle_inference model s pr now path).2.1 =
        s.update_instance target.instance_id
          (fun i => { i with last_request_at := some now })
    ∧ ∀ i ∈ (handle_inference model s pr now path).2.1.instances,
        i.instance_id = target.instance_id → i.last_request_at = some now := by
  have hm' : (model == "") = false := by simp [hm]
  have hs : (handle_inference model s pr now path).2.1 =
      s.update_instance target.instance_id
        (fun i => { i with last_request_at := some now }) := by
    simp only [handle_inference, hm', Bool.false_eq_true, if_false, hready]
    cases pr <;> rfl
  refine ⟨?_, hs, ?_⟩
  · simp only [handle_inference, hm', Bool.false_eq_true, if_false, hready]
    cases pr <;> rfl
  · rw [hs]
    exact last_after_update s target.instance_id now

/-- A ready instance used by several concrete scenarios. -/
def instW1 : Instance :=
  { instance_id := "model#m", model := "m", status := "ready",
    ip := "10.0.0.1", instance_type := "g5",
    launched_at := some 1, last_request_at := some 1,
    provider_instance_id := some "i-1" }

/-- A store holding only instW1. -/
def storeW1 : Store := ⟨[instW1], [], []⟩

/-- A model config for model m with a 300s idle timeout. -/
def cfgW : ModelConfig :=
  { name := "m", instance_type := "g5", vllm_args := "",
    idle_timeout := some (.intV 300) }

/-- A store holding instW1 together with the config for m. -/
def storeW2 : Store := ⟨[instW1], [cfgW], []⟩

/-- Witness for C8: one ready instance, proxy transport failure. -/
theorem last_request_write_precedes_proxy_witness :
    ((¬ "m" = "") ∧
      storeW1.list_instances (some "m") (some "ready") = [instW1]) ∧
    ((handle_inference "m" storeW1 (.raised "boom") 7 "/v1/completions").2.2 =
      [.listInstancesEv (some "m") (some "ready"),
       .updateInstanceEv instW1.instance_id ["last_request_at"],
       .proxyEv instW1.ip "/v1/completions"]
    ∧ (handle_inference "m" storeW1
        (.raised "boom") 7 "/v1/completions").2.1 =
        storeW1.update_instance instW1.instance_id
          (fun i => { i with last_request_at := some 7 })
    ∧ ∀ i ∈ (handle_inference "m" storeW1
        (.raised "boom") 7 "/v1/completions").2.1.instances,
        i.instance_id = instW1.instance_id → i.last_request_at = some 7) :=
  ⟨⟨by decide, rfl⟩,
   last_request_write_precedes_proxy "m" storeW1 (.raised "boom") 7
     "/v1/completions" instW1 [] (by decide) rfl⟩

/-- C10: manual_scale(model, "down") with a ready candidate (or a starting
one when no ready exists) marks the chosen instance terminated in the
store but never invokes compute.terminate. -/
theorem manual_scale_down_skips_compute_terminate (model : String)
    (s : Store) (cfg : ModelConfig) (target : Instance)
    (rest : List Instance)
    (hm : ¬ model = "")
    (hcfg : s.get_model_config model = some cfg)
    (hcand : s.list_instances (some model) (some "ready") = target :: rest
      ∨ (s.list_instances (some model) (some "ready") = []
         ∧ s.list_instances (some model) (some "starting") = target :: rest)) :
    ∃ resp s1 tr,
      manual_scale model "down" s = .ok (resp, s1, tr)
      ∧ resp.terminated_instance_id = some target.instance_id
      ∧ s1 = s.update_instance target.instance_id
          (fun i => { i with status := "terminated" })
      ∧ (∀ i ∈ s1.instances,
          i.instance_id = target.instance_id → i.status = "terminated")
      ∧ (∀ p, Ev.terminateEv p ∉ tr) := by
  have hm' : (model == "") = false := by simp [hm]
  have hup : (pyStrip (pyLower "down") == "up") = false := by decide
  have hdown : (pyStrip (pyLower "down") == "down") = true := by decide
  rcases hcand with hr | ⟨hr0, hst⟩
  · refine ⟨{ ok := true, model := model, action := "down",
              terminated_instance_id := some target.instance_id },
      s.update_instance target.instance_id
        (fun i => { i with status := "terminated" }),
      [.getModelConfigEv model, .listInstancesEv (some model) (some "ready"),
       .updateInstanceEv target.instance_id ["status"]],
      ?_, rfl, rfl,
      status_after_update_terminated s target.instance_id, ?_⟩
    · simp only [manual_scale, hm', Bool.false_eq_true, if_false, hcfg,
        hup, hdown, if_true, hr, List.isEmpty_cons, List.cons_append,
        List.nil_append]
    · intro p
      simp
  · refine ⟨{ ok := true, model := model, action := "down",
              terminated_instance_id := some target.instance_id },
      s.update_instance target.instance_id
        (fun i => { i with status := "terminated" }),
      [.getModelConfigEv model, .listInstancesEv (some model) (some "ready"),
       .listInstancesEv (some model) (some "starting"),
       .updateInstanceEv target.instance_id ["status"]],
      ?_, rfl, rfl,
      status_after_update_terminated s target.instance_id, ?_⟩
    · simp only [manual_scale, hm', Bool.false_eq_true, if_false, hcfg,
        hup, hdown, if_true, hr0, hst, List.isEmpty_nil, List.cons_append,
        List.nil_append]
    · intro p
      simp

/-- Witness for C10: one ready instance, config present. -/
theorem manual_scale_down_skips_compute_terminate_witness :
    ((¬ "m" = "") ∧
      storeW2.get_model_config "m" = some cfgW ∧
      storeW2.list_instances (some "m") (some "ready") = [instW1]) ∧
    (∃ resp s1 tr,
      manual_scale "m" "down" storeW2 = .ok (resp, s1, tr)
      ∧ resp.terminated_instance_id = some instW1.instance_id
      ∧ s1 = storeW2.update_instance instW1.instance_id
          (fun i => { i with status := "terminated" })
      ∧ (∀ i ∈ s1.instances,
          i.instance_id = instW1.instance_id → i.status = "terminated")
      ∧ (∀ p, Ev.terminateEv p ∉ tr)) :=
  ⟨⟨by decide, rfl, rfl⟩,
   manual_scale_down_skips_compute_terminate "m" storeW2 cfgW instW1 []
     (by decide) rfl (Or.inl rfl)⟩

/-- A config for model m whose idle_timeout does not parse as an int. -/
def cfgBad : ModelConfig :=
  { name := "m", instance_type := "g5", vllm_args := "",
    idle_timeout := some (.strV "soon") }

/-- A store with a ready instance for m and the unparseable config. -/
def storeW3 : Store := ⟨[instW1], [cfgBad], []⟩

/-- Counterexample for C6: with idle_timeout = "soon", scale_down does not
default to 300; the int() call raises and the error propagates out of
scale_down. -/
theorem scale_down_unparseable_timeout_raises_cex :
    storeW3.get_model_config "m" = some cfgBad
    ∧ cfgBad.idle_timeout = some (.strV "soon")
    ∧ pyIntParse "soon" = none
    ∧ (storeW3.get_instance "model#m").map Instance.status = some "ready"
    ∧ scale_down storeW3 1000 = .error "invalid literal for int: soon" :=
  ⟨rfl, rfl, by decide, rfl, rfl⟩

/-- C6 (amended): the idle timeout scale_down uses is the configured
value; it defaults to 300 when the config is missing or the idle_timeout
attribute is absent; an unparseable stored value makes int() raise, and
the error propagates out of scale_down instead of defaulting to 300. -/
theorem idle_timeout_default_amended :
    effIdleTimeout none = .ok 300
    ∧ (∀ name ity va, effIdleTimeout
        (some ⟨name, ity, va, none⟩) = .ok 300)
    ∧ (∀ name ity va n, effIdleTimeout
        (some ⟨name, ity, va, some (.intV n)⟩) = .ok n)
    ∧ (∀ name ity va str, effIdleTimeout
        (some ⟨name, ity, va, some (.strV str)⟩) =
        match pyIntParse str with
        | some n => Except.ok n
        | none => Except.error ("invalid literal for int: " ++ str))
    ∧ scale_down storeW3 999 = .error "invalid literal for int: soon" :=
  ⟨rfl, fun _ _ _ => rfl, fun _ _ _ _ => rfl, fun _ _ _ _ => rfl, rfl⟩

/-- The (instance_id, status) view of the instances table: what it means
for an operation not to write any instance status. -/
def statusView (s : Store) : List (String × String) :=
  s.instances.map (fun i => (i.instance_id, i.status))

/-- An update whose field function keeps both instance_id and status
leaves the status view unchanged. -/
theorem statusView_update_of_preserve (s : Store) (id : String)
    (f : Instance → Instance)
    (hf : ∀ i, (f i).instance_id = i.instance_id ∧ (f i).status = i.status) :
    statusView (s.update_instance id f) = statusView s := by
  simp only [statusView, Store.update_instance, List.map_map]
  apply List.map_congr_left
  intro i _
  by_cases h : i.instance_id = id
  · simp [Function.comp, h, (hf i).1, (hf i).2]
  · simp [Function.comp, h]

/-- Counterexample for C5: the cluster component's manual_scale down-path
writes the status field: a ready instance becomes terminated in the store
without the orchestrator being involved. -/
theorem manual_scale_down_writes_status_cex :
    (storeW2.get_instance "model#m").map Instance.status = some "ready"
    ∧ manual_scale "m" "down" storeW2 =
        .ok ({ ok := true, model := "m", action := "down",
               terminated_instance_id := some "model#m" },
             ⟨[{ instW1 with status := "terminated" }], [cfgW], []⟩,
             [.getModelConfigEv "m", .listInstancesEv (some "m") (some "ready"),
              .updateInstanceEv "model#m" ["status"]])
    ∧ ((⟨[{ instW1 with status := "terminated" }], [cfgW], []⟩ : Store).get_instance
        "model#m").map Instance.status = some "terminated" :=
  ⟨rfl, rfl, rfl⟩

/-- C5 (amended): apart from the orchestrator and the cluster
manual_scale down-path, no modelled operation writes any instance status:
the router (both inference paths), auth validation, and every keys
operation leave the (instance_id, status) view of the store unchanged, as
does manual_scale with action up. -/
theorem non_orchestrator_status_writes_amended :
    (∀ model s pr now path,
        statusView (handle_inference model s pr now path).2.1 = statusView s)
    ∧ (∀ token s now, statusView (validate_api_key token s now).2 = statusView s)
    ∧ (∀ email name s rand now,
        statusView (create_key email name s rand now).2 = statusView s)
    ∧ (∀ kh email s, statusView (delete_key kh email s).2 = statusView s)
    ∧ (∀ model s,
        match manual_scale model "up" s with
        | .ok out => statusView out.2.1 = statusView s
        | .error _ => True) := by
  refine ⟨?_, ?_, ?_, ?_, ?_⟩
  · intro model s pr now path
    by_cases hm : model = ""
    · simp [handle_inference, hm]
    · have hm2 : (model == "") = false := by simp [hm]
      simp only [handle_inference, hm2, Bool.false_eq_true, if_false]
      cases hready : s.list_instances (some model) (some "ready") with
      | nil => rfl
      | cons target rest =>
          cases pr with
          | ok st payload =>
              exact statusView_update_of_preserve s target.instance_id _
                (fun i => ⟨rfl, rfl⟩)
          | raised msg =>
              exact statusView_update_of_preserve s target.instance_id _
                (fun i => ⟨rfl, rfl⟩)
  · intro token s now
    simp only [validate_api_key]
    split
    · rfl
    · split
      · rfl
      · rfl
  · intro email name s rand now
    simp only [create_key, Store.put_api_key]
    split
    · rfl
    · rfl
  · intro kh email s
    simp only [delete_key]
    split
    · rfl
    · split
      · rfl
      · rfl
  · intro model s
    by_cases hm : model = ""
    · simp [manual_scale, hm]
    · have hm2 : (model == "") = false := by simp [hm]
      simp only [manual_scale, hm2, Bool.false_eq_true, if_false]
      cases hcfg : s.get_model_config model with
      | none => simp
      | some cfg =>
          have hup2 : (pyStrip (pyLower "up") == "up") = true := by decide
          simp only [hup2, if_true]

/-- A store with only the config for model m. -/
def storeW4 : Store := ⟨[], [cfgW], []⟩

/-- Keyed search over an append whose left part has no match. -/
theorem find_append_left_none (p : Instance → Bool) :
    ∀ l1 l2 : List Instance, l1.find? p = none →
      (l1 ++ l2).find? p = l2.find? p := by
  intro l1
  induction l1 with
  | nil => intro l2 _; rfl
  | cons hd tl ih =>
      intro l2 h
      cases hph : p hd with
      | true =>
          simp only [List.find?_cons, hph] at h
          exact Option.noConfusion h
      | false =>
          simp only [List.find?_cons, hph] at h
          rw [List.cons_append]
          simp only [List.find?_cons, hph]
          exact ih l2 h

/-- Counterexample for C7: after a healthy scale_up whose ready transition
happens at a later clock value than the launch, the stored slot record has
last_request_at strictly newer than launched_at even though no request was
ever proxied. -/
theorem ready_last_request_at_refreshed_cex :
    ((scale_up "m" storeW4 (.ok "i-1" "10.0.0.1") (.ok true) 100 200).2.1.get_instance
        "model#m").map Instance.status = some "ready"
    ∧ ((scale_up "m" storeW4 (.ok "i-1" "10.0.0.1") (.ok true) 100 200).2.1.get_instance
        "model#m").map Instance.launched_at = some (some 100)
    ∧ ((scale_up "m" storeW4 (.ok "i-1" "10.0.0.1") (.ok true) 100 200).2.1.get_instance
        "model#m").map Instance.last_request_at = some (some 200)
    ∧ ¬ (((scale_up "m" storeW4 (.ok "i-1" "10.0.0.1") (.ok true) 100 200).2.1.get_instance
        "model#m").map Instance.last_request_at =
        ((scale_up "m" storeW4 (.ok "i-1" "10.0.0.1") (.ok true) 100 200).2.1.get_instance
        "model#m").map Instance.launched_at) :=
  ⟨rfl, rfl, rfl, by decide⟩

/-- C7 (amended): scale_up creates the placeholder with
last_request_at = launched_at = now and returns a record that still shows
that equality, but the stored ready record has last_request_at refreshed
to the ready-transition clock value; with a monotone clock
last_request_at is at least launched_at, with equality only when no time
elapsed during provisioning. -/
theorem last_request_at_ge_launched_at_amended
    (m : String) (s : Store) (cfg : ModelConfig) (pid ip : String)
    (now readyNow : Int)
    (hmono : now ≤ readyNow)
    (hstart : s.list_instances (some m) (some "starting") = [])
    (hready : s.list_instances (some m) (some "ready") = [])
    (hterm : s.list_instances (some m) (some "terminated") = [])
    (hcfg : s.get_model_config m = some cfg)
    (habsent : (s.instances.any
        (fun i => i.instance_id == "model#" ++ m)) = false) :
    (scale_up m s (.ok pid ip) (.ok true) now readyNow).1 =
      .ret { instance_id := "model#" ++ m, model := m, status := "ready",
             ip := ip, instance_type := cfg.instance_type,
             launched_at := some now, last_request_at := some now,
             provider_instance_id := some pid }
    ∧ (scale_up m s (.ok pid ip) (.ok true) now readyNow).2.1.get_instance
        ("model#" ++ m) =
      some { instance_id := "model#" ++ m, model := m, status := "ready",
             ip := ip, instance_type := cfg.instance_type,
             launched_at := some now, last_request_at := some readyNow,
             provider_instance_id := some pid }
    ∧ (∀ r, (scale_up m s (.ok pid ip) (.ok true) now readyNow).2.1.get_instance
          ("model#" ++ m) = some r →
        r.launched_at.getD 0 ≤ r.last_request_at.getD 0) := by
  have heq : scale_up m s (.ok pid ip) (.ok true) now readyNow =
      (.ret { instance_id := "model#" ++ m, model := m, status := "ready",
              ip := ip, instance_type := cfg.instance_type,
              launched_at := some now, last_request_at := some now,
              provider_instance_id := some pid },
       (({ s with instances := s.instances ++
             [{ instance_id := "model#" ++ m, model := m,
                status := "starting", ip := "",
                instance_type := cfg.instance_type,
                launched_at := some now, last_request_at := some now,
                provider_instance_id := none }] } : Store).update_instance
           ("model#" ++ m)
           (fun i => { i with provider_instance_id := some pid,
                              ip := ip })).update_instance
         ("model#" ++ m)
         (fun i => { i with status := "ready",
                            last_request_at := some readyNow }),
       [.listInstancesEv (some m) (some "starting"),
        .listInstancesEv (some m) (some "ready"),
        .listInstancesEv (some m) (some "terminated"),
        .getModelConfigEv m,
        .putIfAbsentEv ("model#" ++ m) true,
        .launchEv m,
        .updateInstanceEv ("model#" ++ m) ["provider_instance_id", "ip"],
        .pollHealthEv ip,
        .updateInstanceEv ("model#" ++ m) ["status", "last_request_at"]]) := by
    simp only [scale_up, hstart, hready, hterm, hcfg, habsent,
      Store.put_instance_if_absent, Bool.false_eq_true, if_false, if_true,
      List.nil_append, List.append_nil, List.foldl_nil, List.map_nil,
      List.cons_append, List.singleton_append]
  have hbase : ({ s with instances := s.instances ++
      [{ instance_id := "model#" ++ m, model := m,
         status := "starting", ip := "",
         instance_type := cfg.instance_type,
         launched_at := some now, last_request_at := some now,
         provider_instance_id := none }] } : Store).get_instance
      ("model#" ++ m) =
      some { instance_id := "model#" ++ m, model := m,
             status := "starting", ip := "",
             instance_type := cfg.instance_type,
             launched_at := some now, last_request_at := some now,
             provider_instance_id := none } := by
    show (s.instances ++ [_]).find?
        (fun i : Instance => i.instance_id == "model#" ++ m) = some _
    rw [find_append_left_none _ s.instances _
      (List.find?_eq_none.mpr (fun x hx => by
        have := List.any_eq_false.mp habsent x hx
        simpa using this))]
    simp [List.find?_cons]
  have hget := get_update_self _ ("model#" ++ m)
    (fun i : Instance =>
      { i with status := "ready", last_request_at := some readyNow })
    (fun _ => rfl) _
    (get_update_self _ ("model#" ++ m)
      (fun i : Instance =>
        { i with provider_instance_id := some pid, ip := ip })
      (fun _ => rfl) _ hbase)
  refine ⟨by rw [heq], ?_, ?_⟩
  · rw [heq]
    exact hget
  · intro r hr
    rw [heq] at hr
    rw [hget] at hr
    injection hr with hr
    subst hr
    simpa using hmono

/-- Witness for the amended C7 at a concrete healthy cold start. -/
theorem last_request_at_ge_launched_at_amended_witness :
    (((100 : Int) ≤ 200)
      ∧ storeW4.list_instances (some "m") (some "starting") = []
      ∧ storeW4.list_instances (some "m") (some "ready") = []
      ∧ storeW4.list_instances (some "m") (some "terminated") = []
      ∧ storeW4.get_model_config "m" = some cfgW
      ∧ (storeW4.instances.any
          (fun i => i.instance_id == "model#" ++ "m")) = false) ∧
    ((scale_up "m" storeW4 (.ok "i-1" "10.0.0.1") (.ok true) 100 200).1 =
      .ret { instance_id := "model#" ++ "m", model := "m", status := "ready",
             ip := "10.0.0.1", instance_type := cfgW.instance_type,
             launched_at := some 100, last_request_at := some 100,
             provider_instance_id := some "i-1" }
    ∧ (scale_up "m" storeW4 (.ok "i-1" "10.0.0.1")
        (.ok true) 100 200).2.1.get_instance ("model#" ++ "m") =
      some { instance_id := "model#" ++ "m", model := "m", status := "ready",
             ip := "10.0.0.1", instance_type := cfgW.instance_type,
             launched_at := some 100, last_request_at := some 200,
             provider_instance_id := some "i-1" }
    ∧ (∀ r, (scale_up "m" storeW4 (.ok "i-1" "10.0.0.1")
          (.ok true) 100 200).2.1.get_instance ("model#" ++ "m") = some r →
        r.launched_at.getD 0 ≤ r.last_request_at.getD 0)) :=
  ⟨⟨by decide, rfl, rfl, rfl, rfl, rfl⟩,
   last_request_at_ge_launched_at_amended "m" storeW4 cfgW "i-1" "10.0.0.1"
     100 200 (by decide) rfl rfl rfl rfl rfl⟩

/-- The slot record is readable right after a successful claim appended it
to a table that had no row with its id. -/
theorem get_claimed_slot (s : Store) (ph : Instance)
    (habs : (s.instances.any
        (fun i => i.instance_id == ph.instance_id)) = false) :
    ({ s with instances := s.instances ++ [ph] } : Store).get_instance
      ph.instance_id = some ph := by
  show (s.instances ++ [ph]).find?
      (fun i : Instance => i.instance_id == ph.instance_id) = some ph
  rw [find_append_left_none _ s.instances _
    (List.find?_eq_none.mpr (fun x hx => by
      have := List.any_eq_false.mp habs x hx
      simpa using this))]
  simp [List.find?_cons]

/-- C2: a winning scale_up whose health gate fails (poll_health returns
false or raises) terminates the provider node, marks the slot terminated
in the store, and returns a record with status terminated. -/
theorem scale_up_health_failure_terminates
    (m : String) (s : Store) (cfg : ModelConfig) (pid ip : String)
    (hres : HealthRes) (now readyNow : Int)
    (hstart : s.list_instances (some m) (some "starting") = [])
    (hready : s.list_instances (some m) (some "ready") = [])
    (hterm : s.list_instances (some m) (some "terminated") = [])
    (hcfg : s.get_model_config m = some cfg)
    (habsent : (s.instances.any
        (fun i => i.instance_id == "model#" ++ m)) = false)
    (hh : hres = .ok false ∨ hres = .raised) :
    (scale_up m s (.ok pid ip) hres now readyNow).1 =
      .ret { instance_id := "model#" ++ m, model := m,
             status := "terminated", ip := ip,
             instance_type := cfg.instance_type,
             launched_at := some now, last_request_at := some now,
             provider_instance_id := some pid }
    ∧ (scale_up m s (.ok pid ip) hres now readyNow).2.1.get_instance
        ("model#" ++ m) =
      some { instance_id := "model#" ++ m, model := m,
             status := "terminated", ip := ip,
             instance_type := cfg.instance_type,
             launched_at := some now, last_request_at := some now,
             provider_instance_id := some pid }
    ∧ Ev.terminateEv pid ∈ (scale_up m s (.ok pid ip) hres now readyNow).2.2 := by
  have heq : scale_up m s (.ok pid ip) hres now readyNow =
      (.ret { instance_id := "model#" ++ m, model := m,
              status := "terminated", ip := ip,
              instance_type := cfg.instance_type,
              launched_at := some now, last_request_at := some now,
              provider_instance_id := some pid },
       (({ s with instances := s.instances ++
             [{ instance_id := "model#" ++ m, model := m,
                status := "starting", ip := "",
                instance_type := cfg.instance_type,
                launched_at := some now, last_request_at := some now,
                provider_instance_id := none }] } : Store).update_instance
           ("model#" ++ m)
           (fun i => { i with provider_instance_id := some pid,
                              ip := ip })).update_instance
         ("model#" ++ m)
         (fun i => { i with status := "terminated" }),
       [.listInstancesEv (some m) (some "starting"),
        .listInstancesEv (some m) (some "ready"),
        .listInstancesEv (some m) (some "terminated"),
        .getModelConfigEv m,
        .putIfAbsentEv ("model#" ++ m) true,
        .launchEv m,
        .updateInstanceEv ("model#" ++ m) ["provider_instance_id", "ip"],
        .pollHealthEv ip,
        .terminateEv pid,
        .updateInstanceEv ("model#" ++ m) ["status"]]) := by
    rcases hh with h | h <;> subst h <;>
      simp only [scale_up, hstart, hready, hterm, hcfg, habsent,
        Store.put_instance_if_absent, Bool.false_eq_true, if_false, if_true,
        List.nil_append, List.append_nil, List.foldl_nil, List.map_nil,
        List.cons_append, List.singleton_append]
  have hget := get_update_self _ ("model#" ++ m)
    (fun i : Instance => { i with status := "terminated" })
    (fun _ => rfl) _
    (get_update_self _ ("model#" ++ m)
      (fun i : Instance =>
        { i with provider_instance_id := some pid, ip := ip })
      (fun _ => rfl) _
      (get_claimed_slot s
        { instance_id := "model#" ++ m, model := m,
          status := "starting", ip := "",
          instance_type := cfg.instance_type,
          launched_at := some now, last_request_at := some now,
          provider_instance_id := none } habsent))
  refine ⟨by rw [heq], ?_, ?_⟩
  · rw [heq]
    exact hget
  · rw [heq]
    simp

/-- Witness for C2: concrete failed health gate. -/
theorem scale_up_health_failure_terminates_witness :
    (storeW4.list_instances (some "m") (some "starting") = []
      ∧ storeW4.list_instances (some "m") (some "ready") = []
      ∧ storeW4.list_instances (some "m") (some "terminated") = []
      ∧ storeW4.get_model_config "m" = some cfgW
      ∧ (storeW4.instances.any
          (fun i => i.instance_id == "model#" ++ "m")) = false
      ∧ ((HealthRes.ok false) = HealthRes.ok false
          ∨ (HealthRes.ok false) = HealthRes.raised)) ∧
    ((scale_up "m" storeW4 (.ok "i-1" "10.0.0.1") (.ok false) 100 200).1 =
      .ret { instance_id := "model#" ++ "m", model := "m",
             status := "terminated", ip := "10.0.0.1",
             instance_type := cfgW.instance_type,
             launched_at := some 100, last_request_at := some 100,
             provider_instance_id := some "i-1" }
    ∧ (scale_up "m" storeW4 (.ok "i-1" "10.0.0.1")
        (.ok false) 100 200).2.1.get_instance ("model#" ++ "m") =
      some { instance_id := "model#" ++ "m", model := "m",
             status := "terminated", ip := "10.0.0.1",
             instance_type := cfgW.instance_type,
             launched_at := some 100, last_request_at := some 100,
             provider_instance_id := some "i-1" }
    ∧ Ev.terminateEv "i-1" ∈ (scale_up "m" storeW4 (.ok "i-1" "10.0.0.1")
        (.ok false) 100 200).2.2) :=
  ⟨⟨rfl, rfl, rfl, rfl, rfl, Or.inl rfl⟩,
   scale_up_health_failure_terminates "m" storeW4 cfgW "i-1" "10.0.0.1"
     (.ok false) 100 200 rfl rfl rfl rfl rfl (Or.inl rfl)⟩

/-- The tombstone-cleanup loop of scale_up (step 2): delete every
terminated row for the model.  Written exactly as the foldl inside
scale_up so statements about the lost-claim path can name the
intermediate store. -/
def cleanupTombstones (m : String) (s : Store) : Store :=
  (s.list_instances (some m) (some "terminated")).foldl
    (fun acc i => acc.delete_instance i.instance_id) s

/-- Deleting instances never touches the models table. -/
theorem get_model_config_foldl_delete (l : List Instance) :
    ∀ (s : Store) (n : String),
      (l.foldl (fun acc i => acc.delete_instance i.instance_id)
        s).get_model_config n = s.get_model_config n := by
  induction l with
  | nil => intro s n; rfl
  | cons hd tl ih =>
      intro s n
      rw [List.foldl_cons]
      exact ih _ n

/-- C1: when the optimistic claim fails, scale_up performs no further side
effects: the final store is exactly the post-cleanup store, compute.launch
and compute.terminate are never called, the only events after the failed
claim are the two re-listing reads, and the result is the first re-listed
starting-or-ready instance, or the unpersisted placeholder when the
re-listing is empty. -/
theorem scale_up_lost_claim_no_side_effects
    (m : String) (s : Store) (cfg : ModelConfig)
    (lr : LaunchRes) (hr : HealthRes) (now readyNow : Int)
    (hstart : s.list_instances (some m) (some "starting") = [])
    (hready : s.list_instances (some m) (some "ready") = [])
    (hcfg : (cleanupTombstones m s).get_model_config m = some cfg)
    (hpresent : ((cleanupTombstones m s).instances.any
        (fun i => i.instance_id == "model#" ++ m)) = true) :
    scale_up m s lr hr now readyNow =
      (.ret (((cleanupTombstones m s).list_instances (some m) (some "starting")
          ++ (cleanupTombstones m s).list_instances (some m) (some "ready")).headD
          { instance_id := "model#" ++ m, model := m, status := "starting",
            ip := "", instance_type := cfg.instance_type,
            launched_at := some now, last_request_at := some now,
            provider_instance_id := none }),
       cleanupTombstones m s,
       [.listInstancesEv (some m) (some "starting"),
        .listInstancesEv (some m) (some "ready"),
        .listInstancesEv (some m) (some "terminated")]
       ++ (s.list_instances (some m) (some "terminated")).map
            (fun i => Ev.deleteInstanceEv i.instance_id)
       ++ [.getModelConfigEv m,
           .putIfAbsentEv ("model#" ++ m) false,
           .listInstancesEv (some m) (some "starting"),
           .listInstancesEv (some m) (some "ready")])
    ∧ (∀ mdl, Ev.launchEv mdl ∉ (scale_up m s lr hr now readyNow).2.2)
    ∧ (∀ p, Ev.terminateEv p ∉ (scale_up m s lr hr now readyNow).2.2)
    ∧ (∀ e ∈ (cleanupTombstones m s).list_instances (some m) (some "starting")
          ++ (cleanupTombstones m s).list_instances (some m) (some "ready"),
        e.status = "starting" ∨ e.status = "ready") := by
  have hct : (s.list_instances (some m) (some "terminated")).foldl
      (fun acc i => acc.delete_instance i.instance_id) s =
      cleanupTombstones m s := rfl
  have heq : scale_up m s lr hr now readyNow =
      (.ret (((cleanupTombstones m s).list_instances (some m) (some "starting")
          ++ (cleanupTombstones m s).list_instances (some m) (some "ready")).headD
          { instance_id := "model#" ++ m, model := m, status := "starting",
            ip := "", instance_type := cfg.instance_type,
            launched_at := some now, last_request_at := some now,
            provider_instance_id := none }),
       cleanupTombstones m s,
       [.listInstancesEv (some m) (some "starting"),
        .listInstancesEv (some m) (some "ready"),
        .listInstancesEv (some m) (some "terminated")]
       ++ (s.list_instances (some m) (some "terminated")).map
            (fun i => Ev.deleteInstanceEv i.instance_id)
       ++ [.getModelConfigEv m,
           .putIfAbsentEv ("model#" ++ m) false,
           .listInstancesEv (some m) (some "starting"),
           .listInstancesEv (some m) (some "ready")]) := by
    simp only [scale_up, hstart, hready, List.nil_append, hct, hcfg,
      Store.put_instance_if_absent, hpresent, if_true,
      Bool.true_eq_false, Bool.false_eq_true, if_false,
      List.cons_append, List.singleton_append, List.append_nil]
    cases hex : (cleanupTombstones m s).list_instances (some m) (some "starting")
        ++ (cleanupTombstones m s).list_instances (some m) (some "ready") with
    | nil => simp [hex]
    | cons e tl => simp [hex]
  refine ⟨heq, ?_, ?_, ?_⟩
  · intro mdl
    rw [heq]
    simp
  · intro p
    rw [heq]
    simp
  · intro e he
    rcases List.mem_append.mp he with h | h
    · exact Or.inl (status_of_mem_list_instances h)
    · exact Or.inr (status_of_mem_list_instances h)

/-- A slot row stuck in draining: it defeats both the fast path and the
claim, exercising the lost-claim branch of scale_up. -/
def instDrain : Instance :=
  { instance_id := "model#m", model := "m", status := "draining",
    ip := "10.0.0.1", instance_type := "g5",
    launched_at := some 1, last_request_at := some 1,
    provider_instance_id := some "i-1" }

/-- A store with the draining slot and the config for m. -/
def storeW5 : Store := ⟨[instDrain], [cfgW], []⟩

/-- Witness for C1: the claim fails against the draining slot, the
re-listing is empty, and scale_up returns the placeholder with no side
effects. -/
theorem scale_up_lost_claim_no_side_effects_witness :
    (storeW5.list_instances (some "m") (some "starting") = []
      ∧ storeW5.list_instances (some "m") (some "ready") = []
      ∧ (cleanupTombstones "m" storeW5).get_model_config "m" = some cfgW
      ∧ ((cleanupTombstones "m" storeW5).instances.any
          (fun i => i.instance_id == "model#" ++ "m")) = true) ∧
    (scale_up "m" storeW5 .raised (.ok true) 100 200 =
      (.ret (((cleanupTombstones "m" storeW5).list_instances
            (some "m") (some "starting")
          ++ (cleanupTombstones "m" storeW5).list_instances
            (some "m") (some "ready")).headD
          { instance_id := "model#" ++ "m", model := "m",
            status := "starting", ip := "",
            instance_type := cfgW.instance_type,
            launched_at := some 100, last_request_at := some 100,
            provider_instance_id := none }),
       cleanupTombstones "m" storeW5,
       [.listInstancesEv (some "m") (some "starting"),
        .listInstancesEv (some "m") (some "ready"),
        .listInstancesEv (some "m") (some "terminated")]
       ++ (storeW5.list_instances (some "m") (some "terminated")).map
            (fun i => Ev.deleteInstanceEv i.instance_id)
       ++ [.getModelConfigEv "m",
           .putIfAbsentEv ("model#" ++ "m") false,
           .listInstancesEv (some "m") (some "starting"),
           .listInstancesEv (some "m") (some "ready")])
    ∧ (∀ mdl, Ev.launchEv mdl ∉
        (scale_up "m" storeW5 .raised (.ok true) 100 200).2.2)
    ∧ (∀ p, Ev.terminateEv p ∉
        (scale_up "m" storeW5 .raised (.ok true) 100 200).2.2)
    ∧ (∀ e ∈ (cleanupTombstones "m" storeW5).list_instances
          (some "m") (some "starting")
        ++ (cleanupTombstones "m" storeW5).list_instances
          (some "m") (some "ready"),
        e.status = "starting" ∨ e.status = "ready")) :=
  ⟨⟨rfl, rfl, rfl, rfl⟩,
   scale_up_lost_claim_no_side_effects "m" storeW5 cfgW .raised (.ok true)
     100 200 rfl rfl rfl rfl⟩

/-- Unfolding scale_down_go on a cons cell when the timeout errors. -/
theorem scale_down_go_cons_err (now : Int) (inst : Instance)
    (rest : List Instance) (acc : List String) (st : Store) (tr : List Ev)
    (e : String)
    (hto : effIdleTimeout (st.get_model_config inst.model) = .error e) :
    scale_down_go now (inst :: rest) acc st tr = .error e := by
  simp only [scale_down_go]
  rw [hto]

/-- Unfolding scale_down_go on a cons cell when the timeout parses. -/
theorem scale_down_go_cons_ok (now : Int) (inst : Instance)
    (rest : List Instance) (acc : List String) (st : Store) (tr : List Ev)
    (t : Int)
    (hto : effIdleTimeout (st.get_model_config inst.model) = .ok t) :
    scale_down_go now (inst :: rest) acc st tr =
      (if now - lastRequestOf inst > t then
        scale_down_go now rest (acc ++ [inst.instance_id])
          ((st.update_instance inst.instance_id
              (fun i => { i with status := "draining" })).update_instance
            inst.instance_id (fun i => { i with status := "terminated" }))
          (tr ++ [.getModelConfigEv inst.model] ++
            [.updateInstanceEv inst.instance_id ["status"],
             .terminateEv (inst.provider_instance_id.getD inst.instance_id),
             .updateInstanceEv inst.instance_id ["status"]])
      else
        scale_down_go now rest acc st
          (tr ++ [.getModelConfigEv inst.model])) := by
  simp only [scale_down_go]
  rw [hto]

/-- scale_down_go only appends to the trace. -/
theorem scale_down_go_trace_mono (now : Int) :
    ∀ (pending : List Instance) (acc : List String) (st : Store)
      (tr : List Ev) (ids : List String) (s1 : Store) (tr1 : List Ev),
      scale_down_go now pending acc st tr = .ok (ids, s1, tr1) →
      ∃ ext, tr1 = tr ++ ext := by
  intro pending
  induction pending with
  | nil =>
      intro acc st tr ids s1 tr1 h
      simp only [scale_down_go] at h
      cases h
      exact ⟨[], (List.append_nil tr).symm⟩
  | cons inst rest ih =>
      intro acc st tr ids s1 tr1 h
      cases hto : effIdleTimeout (st.get_model_config inst.model) with
      | error e =>
          rw [scale_down_go_cons_err now inst rest acc st tr e hto] at h
          simp at h
      | ok t =>
          rw [scale_down_go_cons_ok now inst rest acc st tr t hto] at h
          by_cases hgt : now - lastRequestOf inst > t
          · rw [if_pos hgt] at h
            obtain ⟨ext, hext⟩ := ih _ _ _ _ _ _ h
            refine ⟨[.getModelConfigEv inst.model,
              .updateInstanceEv inst.instance_id ["status"],
              .terminateEv (inst.provider_instance_id.getD inst.instance_id),
              .updateInstanceEv inst.instance_id ["status"]] ++ ext, ?_⟩
            rw [hext]
            simp
          · rw [if_neg hgt] at h
            obtain ⟨ext, hext⟩ := ih _ _ _ _ _ _ h
            refine ⟨[.getModelConfigEv inst.model] ++ ext, ?_⟩
            rw [hext]
            simp

/-- scale_down_go only appends to the reaped-id list, and everything it
appends is the id of a pending instance. -/
theorem scale_down_go_ids_mono (now : Int) :
    ∀ (pending : List Instance) (acc : List String) (st : Store)
      (tr : List Ev) (ids : List String) (s1 : Store) (tr1 : List Ev),
      scale_down_go now pending acc st tr = .ok (ids, s1, tr1) →
      ∃ ext, ids = acc ++ ext
        ∧ ∀ x ∈ ext, x ∈ pending.map Instance.instance_id := by
  intro pending
  induction pending with
  | nil =>
      intro acc st tr ids s1 tr1 h
      simp only [scale_down_go] at h
      cases h
      exact ⟨[], (List.append_nil acc).symm, by simp⟩
  | cons inst rest ih =>
      intro acc st tr ids s1 tr1 h
      cases hto : effIdleTimeout (st.get_model_config inst.model) with
      | error e =>
          rw [scale_down_go_cons_err now inst rest acc st tr e hto] at h
          simp at h
      | ok t =>
          rw [scale_down_go_cons_ok now inst rest acc st tr t hto] at h
          by_cases hgt : now - lastRequestOf inst > t
          · rw [if_pos hgt] at h
            obtain ⟨ext, hext, hmem⟩ := ih _ _ _ _ _ _ h
            refine ⟨[inst.instance_id] ++ ext, ?_, ?_⟩
            · rw [hext]
              simp
            · intro x hx
              rcases List.mem_append.mp hx with hx | hx
              · simp only [List.mem_singleton] at hx
                subst hx
                simp
              · simp only [List.map_cons, List.mem_cons]
                exact Or.inr (hmem x hx)
          · rw [if_neg hgt] at h
            obtain ⟨ext, hext, hmem⟩ := ih _ _ _ _ _ _ h
            refine ⟨ext, hext, ?_⟩
            intro x hx
            simp only [List.map_cons, List.mem_cons]
            exact Or.inr (hmem x hx)

/-- scale_down_go leaves the record of any id not among its pending
instances untouched. -/
theorem scale_down_go_frame (now : Int) :
    ∀ (pending : List Instance) (acc : List String) (st : Store)
      (tr : List Ev) (ids : List String) (s1 : Store) (tr1 : List Ev),
      scale_down_go now pending acc st tr = .ok (ids, s1, tr1) →
      ∀ id, (∀ p ∈ pending, ¬ p.instance_id = id) →
        s1.get_instance id = st.get_instance id := by
  intro pending
  induction pending with
  | nil =>
      intro acc st tr ids s1 tr1 h id _
      simp only [scale_down_go] at h
      cases h
      rfl
  | cons inst rest ih =>
      intro acc st tr ids s1 tr1 h id hid
      cases hto : effIdleTimeout (st.get_model_config inst.model) with
      | error e =>
          rw [scale_down_go_cons_err now inst rest acc st tr e hto] at h
          simp at h
      | ok t =>
          rw [scale_down_go_cons_ok now inst rest acc st tr t hto] at h
          have hne : ¬ id = inst.instance_id :=
            fun he => hid inst (List.mem_cons_self inst rest) he.symm
          by_cases hgt : now - lastRequestOf inst > t
          · rw [if_pos hgt] at h
            have h1 := ih _ _ _ _ _ _ h id
              (fun p hp => hid p (List.mem_cons_of_mem inst hp))
            rw [h1,
              get_update_ne _ id inst.instance_id
                (fun i : Instance => { i with status := "terminated" })
                (fun _ => rfl) hne,
              get_update_ne _ id inst.instance_id
                (fun i : Instance => { i with status := "draining" })
                (fun _ => rfl) hne]
          · rw [if_neg hgt] at h
            exact ih _ _ _ _ _ _ h id
              (fun p hp => hid p (List.mem_cons_of_mem inst hp))

/-- Per-instance behaviour of the scale_down loop: a pending ready
instance with a unique id and a parseable timeout is reaped exactly when
its idle time exceeds the timeout; reaping publishes draining, calls
compute.terminate, then publishes terminated; otherwise its record is left
untouched. -/
theorem scale_down_go_spec (now : Int) :
    ∀ (pending : List Instance) (acc : List String) (st : Store)
      (tr : List Ev) (inst : Instance) (t : Int) (ids : List String)
      (s1 : Store) (tr1 : List Ev),
      inst ∈ pending →
      (pending.map Instance.instance_id).Nodup →
      st.get_instance inst.instance_id = some inst →
      effIdleTimeout (st.get_model_config inst.model) = .ok t →
      scale_down_go now pending acc st tr = .ok (ids, s1, tr1) →
      ((inst.instance_id ∈ ids ↔
          (inst.instance_id ∈ acc ∨ now - lastRequestOf inst > t))
       ∧ (now - lastRequestOf inst > t →
           s1.get_instance inst.instance_id =
             some { inst with status := "terminated" }
           ∧ [Ev.updateInstanceEv inst.instance_id ["status"],
              Ev.terminateEv (inst.provider_instance_id.getD inst.instance_id),
              Ev.updateInstanceEv inst.instance_id ["status"]].Sublist tr1)
       ∧ (¬ (now - lastRequestOf inst > t) →
           s1.get_instance inst.instance_id = some inst)) := by
  intro pending
  induction pending with
  | nil =>
      intro acc st tr inst t ids s1 tr1 hmem
      exact absurd hmem (List.not_mem_nil inst)
  | cons head rest ih =>
      intro acc st tr inst t ids s1 tr1 hmem hnodup hget hto h
      simp only [List.map_cons, List.nodup_cons] at hnodup
      rcases List.mem_cons.mp hmem with heq | hmem2
      · subst heq
        rw [scale_down_go_cons_ok now inst rest acc st tr t hto] at h
        by_cases hgt : now - lastRequestOf inst > t
        · rw [if_pos hgt] at h
          obtain ⟨ext, hids, hextmem⟩ :=
            scale_down_go_ids_mono now rest _ _ _ _ _ _ h
          obtain ⟨ext2, htr⟩ := scale_down_go_trace_mono now rest _ _ _ _ _ _ h
          have hframe := scale_down_go_frame now rest _ _ _ _ _ _ h
            inst.instance_id
            (fun p hp hpe =>
              hnodup.1 (hpe ▸ List.mem_map_of_mem Instance.instance_id hp))
          refine ⟨?_, fun _ => ⟨?_, ?_⟩, fun hng => absurd hgt hng⟩
          · have hlhs : inst.instance_id ∈ ids := by
              rw [hids]
              simp
            exact iff_of_true hlhs (Or.inr hgt)
          · rw [hframe]
            exact get_update_self _ inst.instance_id
              (fun i : Instance => { i with status := "terminated" })
              (fun _ => rfl) { inst with status := "draining" }
              (get_update_self _ inst.instance_id
                (fun i : Instance => { i with status := "draining" })
                (fun _ => rfl) inst hget)
          · rw [htr, List.append_assoc]
            exact (List.sublist_append_left _ _).trans
              (List.sublist_append_right _ _)
        · rw [if_neg hgt] at h
          obtain ⟨ext, hids, hextmem⟩ :=
            scale_down_go_ids_mono now rest _ _ _ _ _ _ h
          have hframe := scale_down_go_frame now rest _ _ _ _ _ _ h
            inst.instance_id
            (fun p hp hpe =>
              hnodup.1 (hpe ▸ List.mem_map_of_mem Instance.instance_id hp))
          refine ⟨?_, fun hg => absurd hg hgt, fun _ => ?_⟩
          · rw [hids]
            constructor
            · intro hin
              rcases List.mem_append.mp hin with hin | hin
              · exact Or.inl hin
              · exact absurd (hextmem _ hin) hnodup.1
            · intro hin
              rcases hin with hin | hin
              · exact List.mem_append.mpr (Or.inl hin)
              · exact absurd hin hgt
          · rw [hframe]
            exact hget
      · cases hto2 : effIdleTimeout (st.get_model_config head.model) with
        | error e =>
            rw [scale_down_go_cons_err now head rest acc st tr e hto2] at h
            simp at h
        | ok t2 =>
            rw [scale_down_go_cons_ok now head rest acc st tr t2 hto2] at h
            have hne : ¬ head.instance_id = inst.instance_id := by
              intro he
              exact hnodup.1
                (he ▸ List.mem_map_of_mem Instance.instance_id hmem2)
            by_cases hgt2 : now - lastRequestOf head > t2
            · rw [if_pos hgt2] at h
              have hget2 : ((st.update_instance head.instance_id
                    (fun i : Instance =>
                      { i with status := "draining" })).update_instance
                    head.instance_id
                    (fun i : Instance =>
                      { i with status := "terminated" })).get_instance
                  inst.instance_id = some inst := by
                rw [get_update_ne _ inst.instance_id head.instance_id
                    (fun i : Instance => { i with status := "terminated" })
                    (fun _ => rfl) (fun he => hne he.symm),
                  get_update_ne _ inst.instance_id head.instance_id
                    (fun i : Instance => { i with status := "draining" })
                    (fun _ => rfl) (fun he => hne he.symm)]
                exact hget
              have hrec := ih (acc ++ [head.instance_id]) _ _ inst t ids s1
                tr1 hmem2 hnodup.2 hget2 hto h
              refine ⟨?_, hrec.2.1, hrec.2.2⟩
              rw [hrec.1]
              constructor
              · intro hin
                rcases hin with hin | hin
                · rcases List.mem_append.mp hin with hin | hin
                  · exact Or.inl hin
                  · simp only [List.mem_singleton] at hin
                    exact absurd hin.symm hne
                · exact Or.inr hin
              · intro hin
                rcases hin with hin | hin
                · exact Or.inl (List.mem_append.mpr (Or.inl hin))
                · exact Or.inr hin
            · rw [if_neg hgt2] at h
              exact ih acc _ _ inst t ids s1 tr1 hmem2 hnodup.2 hget hto h

/-- C4: a ready instance is reaped by scale_down (draining published, then
compute.terminate with provider_instance_id falling back to the slot id,
then terminated, with its id in the returned list) exactly when
now - last_request_at (falling back to launched_at, then 0) strictly
exceeds the model's idle timeout; otherwise its record is left untouched. -/
theorem scale_down_reaps_iff_idle_exceeds_timeout
    (s : Store) (now : Int) (inst : Instance) (t : Int)
    (ids : List String) (s1 : Store) (tr : List Ev)
    (hnodup : (s.instances.map Instance.instance_id).Nodup)
    (hmem : inst ∈ s.list_instances none (some "ready"))
    (ht : effIdleTimeout (s.get_model_config inst.model) = .ok t)
    (hrun : scale_down s now = .ok (ids, s1, tr)) :
    (inst.instance_id ∈ ids ↔ now - lastRequestOf inst > t)
    ∧ (now - lastRequestOf inst > t →
        s1.get_instance inst.instance_id =
          some { inst with status := "terminated" }
        ∧ [Ev.updateInstanceEv inst.instance_id ["status"],
           Ev.terminateEv (inst.provider_instance_id.getD inst.instance_id),
           Ev.updateInstanceEv inst.instance_id ["status"]].Sublist tr)
    ∧ (¬ now - lastRequestOf inst > t →
        s1.get_instance inst.instance_id = some inst) := by
  have hginst : s.get_instance inst.instance_id = some inst :=
    get_of_mem_nodup s inst (mem_of_mem_list_instances hmem) hnodup
  have hnodup2 : ((s.list_instances none (some "ready")).map
      Instance.instance_id).Nodup :=
    List.Nodup.sublist ((List.filter_sublist _).map Instance.instance_id)
      hnodup
  have hspec := scale_down_go_spec now (s.list_instances none (some "ready"))
    [] s [.listInstancesEv none (some "ready")] inst t ids s1 tr hmem hnodup2
    hginst ht hrun
  refine ⟨?_, hspec.2.1, hspec.2.2⟩
  rw [hspec.1]
  simp

/-- Witness for C4: one idle ready instance past its timeout is reaped. -/
theorem scale_down_reaps_iff_idle_exceeds_timeout_witness :
    ((storeW2.instances.map Instance.instance_id).Nodup
      ∧ instW1 ∈ storeW2.list_instances none (some "ready")
      ∧ effIdleTimeout (storeW2.get_model_config instW1.model) = .ok 300
      ∧ scale_down storeW2 1000 =
          .ok (["model#m"],
            ⟨[{ instW1 with status := "terminated" }], [cfgW], []⟩,
            [.listInstancesEv none (some "ready"),
             .getModelConfigEv "m",
             .updateInstanceEv "model#m" ["status"],
             .terminateEv "i-1",
             .updateInstanceEv "model#m" ["status"]])) ∧
    ((instW1.instance_id ∈ ["model#m"] ↔ 1000 - lastRequestOf instW1 > 300)
     ∧ (1000 - lastRequestOf instW1 > 300 →
         (⟨[{ instW1 with status := "terminated" }], [cfgW], []⟩ : Store).get_instance
             instW1.instance_id =
           some { instW1 with status := "terminated" }
         ∧ [Ev.updateInstanceEv instW1.instance_id ["status"],
            Ev.terminateEv (instW1.provider_instance_id.getD instW1.instance_id),
            Ev.updateInstanceEv instW1.instance_id ["status"]].Sublist
             [.listInstancesEv none (some "ready"),
              .getModelConfigEv "m",
              .updateInstanceEv "model#m" ["status"],
              .terminateEv "i-1",
              .updateInstanceEv "model#m" ["status"]])
     ∧ (¬ 1000 - lastRequestOf instW1 > 300 →
         (⟨[{ instW1 with status := "terminated" }], [cfgW], []⟩ : Store).get_instance
             instW1.instance_id = some instW1)) :=
  ⟨⟨by decide, by decide, rfl, rfl⟩,
   scale_down_reaps_iff_idle_exceeds_timeout storeW2 1000 instW1 300
     ["model#m"] ⟨[{ instW1 with status := "terminated" }], [cfgW], []⟩
     [.listInstancesEv none (some "ready"),
      .getModelConfigEv "m",
      .updateInstanceEv "model#m" ["status"],
      .terminateEv "i-1",
      .updateInstanceEv "model#m" ["status"]]
     (by decide) (by decide) rfl rfl⟩

/-- Generic keyed search over an append whose left part has no match. -/
theorem find_append_of_none {α : Type} (p : α → Bool) :
    ∀ l1 l2 : List α, l1.find? p = none →
      (l1 ++ l2).find? p = l2.find? p := by
  intro l1
  induction l1 with
  | nil => intro l2 _; rfl
  | cons hd tl ih =>
      intro l2 h
      cases hph : p hd with
      | true =>
          simp only [List.find?_cons, hph] at h
          exact Option.noConfusion h
      | false =>
          simp only [List.find?_cons, hph] at h
          rw [List.cons_append]
          simp only [List.find?_cons, hph]
          exact ih l2 h

/-- Keyed search after a dict-style overwrite of every matching key. -/
theorem find_map_put (r : ApiKeyRecord) :
    ∀ l : List ApiKeyRecord,
      l.any (fun k => k.key_hash == r.key_hash) = true →
      (l.map (fun k => if k.key_hash == r.key_hash then r else k)).find?
        (fun k => k.key_hash == r.key_hash) = some r := by
  intro l
  induction l with
  | nil => intro h; simp at h
  | cons hd tl ih =>
      intro hany
      rw [List.map_cons]
      by_cases hph : hd.key_hash = r.key_hash
      · have h1 : (hd.key_hash == r.key_hash) = true := by simp [hph]
        have hg : (if hd.key_hash == r.key_hash then r else hd) = r := by
          simp [h1]
        rw [hg]
        have h2 : (r.key_hash == r.key_hash) = true := by simp
        simp only [List.find?_cons, h2]
      · have h1 : (hd.key_hash == r.key_hash) = false := by simp [hph]
        have hg : (if hd.key_hash == r.key_hash then r else hd) = hd := by
          simp [h1]
        rw [hg]
        simp only [List.find?_cons, h1]
        apply ih
        simp only [List.any_cons, h1, Bool.false_or] at hany
        exact hany

/-- A key record just stored with put_api_key is read back at its hash. -/
theorem get_put_api_key (s : Store) (r : ApiKeyRecord) :
    (s.put_api_key r).get_api_key r.key_hash = some r := by
  simp only [Store.put_api_key]
  by_cases hany : s.apiKeys.any (fun k => k.key_hash == r.key_hash) = true
  · rw [if_pos hany]
    exact find_map_put r s.apiKeys hany
  · rw [if_neg hany]
    show (s.apiKeys ++ [r]).find? (fun k => k.key_hash == r.key_hash) = some r
    rw [find_append_of_none _ s.apiKeys [r]
      (List.find?_eq_none.mpr (fun x hx hpx => by
        exact hany (List.any_eq_true.mpr ⟨x, hx, hpx⟩)))]
    have h2 : (r.key_hash == r.key_hash) = true := by simp
    simp only [List.find?_cons, h2]

/-- No hex digit of a nibble is the dash character. -/
theorem hexChar_ne_dash (n : Nat) (hn : n < 16) : hexChar n ≠ '-' := by
  interval_cases n <;> decide

/-- Hex digests never contain the dash character. -/
theorem dash_not_mem_hexdigest (bs : List Nat) :
    '-' ∉ (hexdigest bs).data := by
  intro hc
  simp only [hexdigest] at hc
  rcases List.mem_flatten.mp hc with ⟨sub, hsub, hcsub⟩
  rcases List.mem_map.mp hsub with ⟨b, _, rfl⟩
  simp only [byteToHex, List.mem_cons, List.mem_singleton] at hcsub
  rcases hcsub with h | h | h
  · exact hexChar_ne_dash _ (Nat.mod_lt _ (by norm_num)) h.symm
  · exact hexChar_ne_dash _ (Nat.mod_lt _ (by norm_num)) h.symm
  · exact absurd h (List.not_mem_nil _)

/-- C9: the create_key → validate_api_key round trip succeeds for every
email, name, randomness and prior store: validation of the returned token
yields (true, email); the stored record is keyed by the SHA-256 hex hash
of the token and holds exactly the hash, email, name and timestamps; the
two components hash with the same function; and the raw token is distinct
from the hash under which the record is stored (hex digests cannot
contain the dash every token starts with). -/
theorem create_validate_round_trip (email name : String) (s : Store)
    (rand : String) (now now2 : Int) :
    (validate_api_key ((create_key email name s rand now).1.key)
        ((create_key email name s rand now).2) now2).1 = (true, some email)
    ∧ ((create_key email name s rand now).2.get_api_key
        (hash_api_key ((create_key email name s rand now).1.key)) =
      some { key_hash := hash_api_key ("dio-" ++ rand), email := email,
             name := name, created_at := now, last_used_at := now })
    ∧ keysHashApiKey = hash_api_key
    ∧ (create_key email name s rand now).1.key ≠
        hash_api_key ((create_key email name s rand now).1.key) := by
  have htokne : ("dio-" ++ rand) ≠ "" := by
    intro h
    have hd := congrArg String.data h
    rw [String.data_append] at hd
    rcases List.append_eq_nil.mp hd with ⟨h1, _⟩
    exact absurd h1 (by decide)
  have hbeq : (("dio-" ++ rand) == "") = false :=
    beq_eq_false_iff_ne.mpr htokne
  have hpre : pyStartswith ("dio-" ++ rand) "dio-" = true := by
    simp only [pyStartswith, String.data_append]
    exact List.isPrefixOf_iff_prefix.mpr (List.prefix_append _ _)
  have hkey : (create_key email name s rand now).1.key = "dio-" ++ rand := rfl
  have hput : (create_key email name s rand now).2.get_api_key
      (hash_api_key ("dio-" ++ rand)) =
      some { key_hash := hash_api_key ("dio-" ++ rand), email := email,
             name := name, created_at := now, last_used_at := now } :=
    get_put_api_key s _
  refine ⟨?_, ?_, rfl, ?_⟩
  · simp only [validate_api_key, hkey, hbeq, hpre, Bool.not_true,
      Bool.or_self, Bool.false_eq_true, if_false]
    rw [hput]
  · rw [hkey]
    exact hput
  · rw [hkey]
    intro h
    have hd := congrArg String.data h
    rw [String.data_append] at hd
    have hdash : '-' ∈ ("dio-".data : List Char) := by decide
    have hmemhash : '-' ∈ (hash_api_key ("dio-" ++ rand)).data := by
      rw [← hd]
      exact List.mem_append.mpr (Or.inl hdash)
    exact dash_not_mem_hexdigest (sha256 (utf8Bytes ("dio-" ++ rand))) hmemhash

end Diogenes
